import Mathlib

/-
  Verification development for the news-intelligence pipeline of the
  market_prediction repository.

  The Python sources are shallowly embedded as Lean definitions:
  * Python dicts (insertion ordered, unique keys) are association lists
    `List (String × β)` together with `dget` / `dset` / `dmodify`;
  * float arithmetic on sentiments, priorities and scores is modelled
    with `ℚ` (the computations involved are order comparisons and exact
    ratios of small integers);
  * embedding vectors and cosine similarity, which need square roots,
    are modelled over `ℝ`;
  * a Python function that may raise models its result as `Except String _`;
    external calls (FinBERT, Ollama) are black boxes, so a stage backed by
    such a call takes the outcome of the call as an `Option` parameter
    (`none` = transport/parse failure or unusable value, exactly as the
    surrounding `try/except` treats it).
-/

namespace MarketPrediction

/-! ### Python dict as an association list -/

section Dict

variable {β : Type}

/-- Keys of an association list, in insertion order (`dict.keys()`). -/
def keys (l : List (String × β)) : List String :=
  l.map Prod.fst

/-- Python `d[k]` / `k in d`: first value stored under key `k`. -/
def dget (t : String) : List (String × β) → Option β
  | [] => none
  | q :: l => if q.1 = t then some q.2 else dget t l

/-- Rewrite the value stored under key `k` in place (a field update on `d[k]`). -/
def dmodify (l : List (String × β)) (k : String) (f : β → β) : List (String × β) :=
  l.map fun q => if q.1 = k then (k, f q.2) else q

/-- Python dict assignment `d[k] = v`: replace in place if the key exists,
append otherwise. -/
def dset (l : List (String × β)) (k : String) (v : β) : List (String × β) :=
  if (dget k l).isSome then dmodify l k (fun _ => v) else l ++ [(k, v)]

@[simp]
theorem dget_nil (t : String) : dget t ([] : List (String × β)) = none :=
  rfl

@[simp]
theorem dget_cons (t : String) (q : String × β) (l : List (String × β)) :
    dget t (q :: l) = if q.1 = t then some q.2 else dget t l :=
  rfl

theorem dget_append (t : String) (l₁ l₂ : List (String × β)) :
    dget t (l₁ ++ l₂) =
      match dget t l₁ with
      | some v => some v
      | none => dget t l₂ := by
  induction l₁ with
  | nil => simp
  | cons q l ih =>
    by_cases h : q.1 = t <;> simp [dget, h, ih]

theorem dget_dmodify (t k : String) (l : List (String × β)) (f : β → β) :
    dget t (dmodify l k f) = if t = k then (dget t l).map f else dget t l := by
  induction l with
  | nil => simp [dmodify]
  | cons q l ih =>
    simp only [dmodify, List.map_cons]
    by_cases hqk : q.1 = k
    · by_cases htk : t = k
      · subst htk
        simp [dget, hqk]
      · have hkt : ¬ k = t := fun h => htk h.symm
        have hqt : ¬ q.1 = t := by rw [hqk]; exact hkt
        simp only [if_pos hqk, dget_cons, if_neg hkt, if_neg hqt]
        rw [show dget t (List.map (fun q => if q.1 = k then (k, f q.2) else q) l)
              = dget t (dmodify l k f) from rfl, ih, if_neg htk]
    · by_cases hqt : q.1 = t
      · have htk : ¬ t = k := fun h => hqk (by rw [hqt, h])
        simp only [if_neg hqk, dget_cons, if_pos hqt, if_neg htk]
      · simp only [if_neg hqk, dget_cons, if_neg hqt]
        rw [show dget t (List.map (fun q => if q.1 = k then (k, f q.2) else q) l)
              = dget t (dmodify l k f) from rfl, ih]

theorem dget_eq_none_of_not_mem_keys {t : String} {l : List (String × β)}
    (h : t ∉ keys l) : dget t l = none := by
  induction l with
  | nil => rfl
  | cons q l ih =>
    simp only [keys, List.map_cons, List.mem_cons, not_or] at h
    have hq : ¬ q.1 = t := fun he => h.1 he.symm
    rw [dget_cons, if_neg hq]
    exact ih h.2

theorem not_mem_keys_of_dget_eq_none {t : String} {l : List (String × β)}
    (h : dget t l = none) : t ∉ keys l := by
  induction l with
  | nil => simp [keys]
  | cons q l ih =>
    by_cases hq : q.1 = t
    · rw [dget_cons, if_pos hq] at h
      exact absurd h (by simp)
    · rw [dget_cons, if_neg hq] at h
      have hrest := ih h
      simp only [keys, List.map_cons, List.mem_cons, not_or]
      exact ⟨fun he => hq he.symm, hrest⟩

theorem mem_of_dget_eq_some {t : String} {v : β} {l : List (String × β)}
    (h : dget t l = some v) : (t, v) ∈ l := by
  induction l with
  | nil => simp [dget] at h
  | cons q l ih =>
    obtain ⟨q1, q2⟩ := q
    by_cases hq : q1 = t
    · rw [dget_cons, if_pos hq] at h
      subst hq
      have hv : q2 = v := Option.some.inj h
      subst hv
      exact List.mem_cons_self _ _
    · rw [dget_cons, if_neg hq] at h
      exact List.mem_cons_of_mem _ (ih h)

theorem dget_eq_some_of_mem {t : String} {v : β} {l : List (String × β)}
    (hnd : (keys l).Nodup) (h : (t, v) ∈ l) : dget t l = some v := by
  induction l with
  | nil => simp at h
  | cons q l ih =>
    obtain ⟨q1, q2⟩ := q
    simp only [keys, List.map_cons, List.nodup_cons] at hnd
    rcases List.mem_cons.mp h with he | hm
    · have h1 : t = q1 := congrArg Prod.fst he
      have h2 : v = q2 := congrArg Prod.snd he
      subst h1
      rw [dget_cons, if_pos rfl, h2]
    · have ht : t ∈ List.map Prod.fst l := by
        simpa using List.mem_map_of_mem Prod.fst hm
      have hq : ¬ q1 = t := fun he' => hnd.1 (he' ▸ ht)
      rw [dget_cons, if_neg hq]
      exact ih hnd.2 hm

theorem dget_eq_some_iff_mem {t : String} {v : β} {l : List (String × β)}
    (hnd : (keys l).Nodup) : dget t l = some v ↔ (t, v) ∈ l :=
  ⟨mem_of_dget_eq_some, dget_eq_some_of_mem hnd⟩

end Dict

/-! ### Candidate merge (src/candidates/selector.py)

`CandidateSelector.select_candidates` merges four strategy dicts
`ticker -> info` into one list of `(ticker, reason, priority)` tuples.
Strategy info dicts carry a `reason` plus optional `sentiment` /
`magnitude` fields (only these are read by the selector; extra
diagnostic fields such as the baseline rotation index are never read
and are not modelled). -/

/-- Metadata a strategy attaches to a proposed ticker. -/
structure SInfo where
  reason : String
  sentiment : Option ℚ
  magnitude : Option ℚ
deriving Repr, DecidableEq

/-- Entry of the `all_candidates` dict of the selector. -/
structure CandInfo where
  reason : String
  priority : ℚ
  source : String
  score : ℚ
deriving Repr, DecidableEq

/-- Entry created for a news-driven candidate (selector.py lines 61-68). -/
def newsEntry (i : SInfo) : CandInfo :=
  ⟨i.reason, 9/10, "news", |i.sentiment.getD 0|⟩

/-- Entry created for a fresh market-driven candidate (lines 77-84). -/
def marketEntry (i : SInfo) : CandInfo :=
  ⟨i.reason, 4/5, "market", i.magnitude.getD (1/2)⟩

/-- Entry created for a fresh portfolio-driven candidate (lines 94-101). -/
def portfolioEntry (i : SInfo) : CandInfo :=
  ⟨i.reason, 17/20, "portfolio", 1⟩

/-- Entry created for a fresh baseline candidate (lines 108-116). -/
def baselineEntry (i : SInfo) : CandInfo :=
  ⟨i.reason, 1/2, "baseline", 1/2⟩

/-- One iteration of a selector merge loop: if the ticker is already in
`all_candidates` apply the update of the loop to the stored entry, otherwise
append the fresh entry of the loop. -/
def mergeStep (hit : CandInfo → SInfo → CandInfo) (miss : SInfo → CandInfo)
    (acc : List (String × CandInfo)) (p : String × SInfo) :
    List (String × CandInfo) :=
  match dget p.1 acc with
  | some _ => dmodify acc p.1 (fun v => hit v p.2)
  | none => acc ++ [(p.1, miss p.2)]

/-- News loop: unconditional dict assignment (a duplicate key would be
overwritten, matching `all_candidates[ticker] = {...}`). -/
def newsStep : List (String × CandInfo) → String × SInfo → List (String × CandInfo) :=
  mergeStep (fun _ i => newsEntry i) newsEntry

/-- Market loop: an already-present ticker gets priority `0.9` and the
broadened source tag `"news_market"` (lines 74-76). -/
def marketStep : List (String × CandInfo) → String × SInfo → List (String × CandInfo) :=
  mergeStep (fun v _ => { v with priority := 9/10, source := "news_market" }) marketEntry

/-- Portfolio loop: an already-present ticker gets priority
`max(existing, 0.85)` (lines 90-93). -/
def portfolioStep : List (String × CandInfo) → String × SInfo → List (String × CandInfo) :=
  mergeStep (fun v _ => { v with priority := max v.priority (17/20) }) portfolioEntry

/-- Baseline loop: an already-present ticker is left untouched (lines 108-116). -/
def baselineStep : List (String × CandInfo) → String × SInfo → List (String × CandInfo) :=
  mergeStep (fun v _ => v) baselineEntry

/-- The `all_candidates` dict after the four merge loops (lines 55-116). -/
def mergeDicts (news market portfolio baseline : List (String × SInfo)) :
    List (String × CandInfo) :=
  let a1 := news.foldl newsStep []
  let a2 := market.foldl marketStep a1
  let a3 := portfolio.foldl portfolioStep a2
  baseline.foldl baselineStep a3

/-- Sort order used at line 125: `key=lambda x: (-priority, ticker)`,
i.e. priority descending with ties broken by ticker ascending. -/
def candidateRel (a b : String × String × ℚ) : Prop :=
  b.2.2 < a.2.2 ∨ (a.2.2 = b.2.2 ∧ a.1 ≤ b.1)

instance : DecidableRel candidateRel := fun a b =>
  inferInstanceAs (Decidable (b.2.2 < a.2.2 ∨ (a.2.2 = b.2.2 ∧ a.1 ≤ b.1)))

instance : IsTotal (String × String × ℚ) candidateRel := by
  constructor
  intro a b
  rcases lt_trichotomy a.2.2 b.2.2 with h | h | h
  · exact Or.inr (Or.inl h)
  · rcases le_total a.1 b.1 with ht | ht
    · exact Or.inl (Or.inr ⟨h, ht⟩)
    · exact Or.inr (Or.inr ⟨h.symm, ht⟩)
  · exact Or.inl (Or.inl h)

instance : IsTrans (String × String × ℚ) candidateRel := by
  constructor
  intro a b c hab hbc
  rcases hab with h | ⟨he, ht⟩
  · rcases hbc with h' | ⟨he', ht'⟩
    · exact Or.inl (h'.trans h)
    · exact Or.inl (he' ▸ h)
  · rcases hbc with h' | ⟨he', ht'⟩
    · exact Or.inl (by rw [he]; exact h')
    · exact Or.inr ⟨he.trans he', ht.trans ht'⟩

/-- Lines 118-139: project `all_candidates` to `(ticker, reason, priority)`
tuples and sort (a stable sort, modelled by insertion sort). -/
def select_candidates_merge (news market portfolio baseline : List (String × SInfo)) :
    List (String × String × ℚ) :=
  List.insertionSort candidateRel
    ((mergeDicts news market portfolio baseline).map fun q => (q.1, q.2.reason, q.2.priority))

/-! ### The four strategy drivers

`NewsDriver`, `MarketDriver` and `PortfolioDriver` (news_driven.py,
market_driven.py, portfolio_driven.py) are Phase-4/5 placeholders: the
body of each `select_candidates` only logs, its `try/except` swallows
any exception raised inside (the comment there reads: do not raise, allow
pipeline to continue), and the empty candidate dict built before the `try` is
returned either way.  The `bodyRaises` flag records whether the body
raised; the result does not depend on it. -/

def newsDriver_select (hours_lookback : Nat) (bodyRaises : Bool) :
    List (String × SInfo) :=
  []

def marketDriver_select (bodyRaises : Bool) : List (String × SInfo) :=
  []

def portfolioDriver_select (bodyRaises : Bool) : List (String × SInfo) :=
  []

/-- The blue-chip universe of baseline.py (57 tickers). -/
def BASELINE_UNIVERSE : List String :=
  ["AAPL", "MSFT", "GOOGL", "AMZN", "NVDA",
   "META", "TSLA", "NFLX", "CRM", "ADBE",
   "JPM", "BAC", "WFC", "GS", "MS",
   "BLK", "SCHW", "AXP",
   "PFE", "JNJ", "UNH", "MRK", "ABBV",
   "LLY", "BMY",
   "BA", "CAT", "GE", "LMT", "RTX", "HON",
   "XOM", "CVX", "COP", "SLB",
   "WMT", "KO", "MCD", "NKE", "COST", "TJX", "HD",
   "VZ", "T", "CMCSA",
   "NEE", "D", "SO",
   "BRK.B", "PM", "MO", "MMM",
   "PLD", "SPG", "O",
   "FDX", "UPS"]

/-- Embedding of `BaselineRotator.select_candidates` (baseline.py lines 71-126): builds a
rotation of `rotation_size` tickers starting at `day_of_year % 57`, then
computes `cycle_length = 57 // rotation_size` — which raises
`ZeroDivisionError` when `rotation_size = 0`.  Unlike the other three
drivers its `except` clause logs and RE-RAISES, so the error escapes. -/
def baselineRotator_select (rotation_size day_of_year : Nat) :
    Except String (List (String × SInfo)) :=
  let offset := day_of_year % BASELINE_UNIVERSE.length
  let selected := (List.range rotation_size).map
    fun i => (offset + i) % BASELINE_UNIVERSE.length
  let candidates := selected.foldl
    (fun acc idx => dset acc (BASELINE_UNIVERSE.getD idx "")
      ⟨"baseline_rotation", none, none⟩) []
  if rotation_size = 0 then Except.error "ZeroDivisionError"
  else Except.ok candidates

/-! ### Lookup characterisation of the merge -/

theorem dget_mergeStep (hit : CandInfo → SInfo → CandInfo) (miss : SInfo → CandInfo)
    (acc : List (String × CandInfo)) (k : String) (i : SInfo) (t : String) :
    dget t (mergeStep hit miss acc (k, i)) =
      if t = k then
        some (match dget k acc with
              | some v => hit v i
              | none => miss i)
      else dget t acc := by
  unfold mergeStep
  cases h : dget k acc with
  | some v =>
    simp only [h]
    rw [dget_dmodify]
    by_cases ht : t = k
    · subst ht
      simp [h]
    · simp [ht]
  | none =>
    simp only [h]
    rw [dget_append]
    by_cases ht : t = k
    · subst ht
      simp [h, dget]
    · have hkt : ¬ k = t := fun h' => ht h'.symm
      cases h2 : dget t acc <;> simp [h2, dget, hkt, ht]

theorem dget_foldl_mergeStep (hit : CandInfo → SInfo → CandInfo)
    (miss : SInfo → CandInfo) (l : List (String × SInfo))
    (hnd : (keys l).Nodup) (acc : List (String × CandInfo)) (t : String) :
    dget t (l.foldl (mergeStep hit miss) acc) =
      match dget t l with
      | none => dget t acc
      | some i => some (match dget t acc with
                        | some v => hit v i
                        | none => miss i) := by
  induction l generalizing acc with
  | nil => simp [dget]
  | cons q l ih =>
    obtain ⟨k, j⟩ := q
    simp only [keys, List.map_cons, List.nodup_cons] at hnd
    simp only [List.foldl_cons]
    by_cases ht : t = k
    · subst ht
      have hl : dget t l = none :=
        dget_eq_none_of_not_mem_keys (by simpa [keys] using hnd.1)
      rw [ih hnd.2]
      simp only [hl, dget_cons, if_pos rfl]
      rw [dget_mergeStep]
      simp
    · rw [ih hnd.2, dget_mergeStep]
      have hkt : ¬ k = t := fun h => ht h.symm
      simp [ht, dget, hkt]

/-- The value the merge stores for one ticker, as a function of the four
per-strategy entries for that ticker (the per-key unrolling of the four
loops of selector.py). -/
def mergeSpec (ni mi pi bi : Option SInfo) : Option CandInfo :=
  let a1 := ni.map newsEntry
  let a2 := match mi with
    | none => a1
    | some i => some (match a1 with
        | some v => { v with priority := 9/10, source := "news_market" }
        | none => marketEntry i)
  let a3 := match pi with
    | none => a2
    | some i => some (match a2 with
        | some v => { v with priority := max v.priority (17/20) }
        | none => portfolioEntry i)
  match bi with
  | none => a3
  | some i => some (match a3 with
      | some v => v
      | none => baselineEntry i)

theorem dget_mergeDicts (news market portfolio baseline : List (String × SInfo))
    (hn : (keys news).Nodup) (hm : (keys market).Nodup)
    (hp : (keys portfolio).Nodup) (hb : (keys baseline).Nodup) (t : String) :
    dget t (mergeDicts news market portfolio baseline) =
      mergeSpec (dget t news) (dget t market) (dget t portfolio) (dget t baseline) := by
  unfold mergeDicts mergeSpec newsStep marketStep portfolioStep baselineStep
  rw [dget_foldl_mergeStep _ _ baseline hb, dget_foldl_mergeStep _ _ portfolio hp,
      dget_foldl_mergeStep _ _ market hm, dget_foldl_mergeStep _ _ news hn]
  cases dget t news <;> cases dget t market <;> cases dget t portfolio <;>
    cases dget t baseline <;> simp [dget]

theorem keys_dmodify (l : List (String × CandInfo)) (k : String)
    (f : CandInfo → CandInfo) : keys (dmodify l k f) = keys l := by
  induction l with
  | nil => rfl
  | cons q l ih =>
    simp only [dmodify, keys, List.map_cons] at ih ⊢
    rw [ih]
    by_cases h : q.1 = k <;> simp [h]

theorem keys_nodup_mergeStep (hit : CandInfo → SInfo → CandInfo)
    (miss : SInfo → CandInfo) (acc : List (String × CandInfo))
    (p : String × SInfo) (h : (keys acc).Nodup) :
    (keys (mergeStep hit miss acc p)).Nodup := by
  unfold mergeStep
  cases hg : dget p.1 acc with
  | some v =>
    rw [keys_dmodify]
    exact h
  | none =>
    have hnm : p.1 ∉ keys acc := not_mem_keys_of_dget_eq_none hg
    simp only [keys, List.map_append, List.map_cons, List.map_nil]
    rw [List.nodup_append]
    exact ⟨h, List.nodup_singleton _, by
      intro a ha hb
      simp at hb
      exact hnm (hb ▸ ha)⟩

theorem keys_nodup_foldl (hit : CandInfo → SInfo → CandInfo)
    (miss : SInfo → CandInfo) (l : List (String × SInfo))
    (acc : List (String × CandInfo)) (h : (keys acc).Nodup) :
    (keys (l.foldl (mergeStep hit miss) acc)).Nodup := by
  induction l generalizing acc with
  | nil => exact h
  | cons q l ih => exact ih _ (keys_nodup_mergeStep _ _ _ _ h)

theorem keys_nodup_mergeDicts (news market portfolio baseline : List (String × SInfo)) :
    (keys (mergeDicts news market portfolio baseline)).Nodup := by
  unfold mergeDicts newsStep marketStep portfolioStep baselineStep
  apply keys_nodup_foldl
  apply keys_nodup_foldl
  apply keys_nodup_foldl
  apply keys_nodup_foldl
  simp [keys]

/-- The priorities of the strategies that proposed ticker `t`
(news `0.9`, market `0.8`, portfolio `0.85`, baseline `0.5`). -/
def contribPriorities (news market portfolio baseline : List (String × SInfo))
    (t : String) : List ℚ :=
  (if (dget t news).isSome then [9/10] else []) ++
  (if (dget t market).isSome then [4/5] else []) ++
  (if (dget t portfolio).isSome then [17/20] else []) ++
  (if (dget t baseline).isSome then [1/2] else [])

/-- Maximum of a list of rationals (`0` for the empty list, which never
occurs at a use site). -/
def listMaxQ : List ℚ → ℚ
  | [] => 0
  | x :: xs => xs.foldl max x

/-- Embedding of `CandidateSelector.select_candidates` (selector.py lines 41-143): runs the
four strategies in order, merges, sorts.  The whole body sits in a single
`try`, and the `except` clause logs and re-raises (line 143), so any
exception escaping a strategy call aborts the merge and propagates. -/
def CandidateSelector_select (hours_lookback rotation_size day_of_year : Nat)
    (newsBodyRaises marketBodyRaises portfolioBodyRaises : Bool) :
    Except String (List (String × String × ℚ)) :=
  let news := newsDriver_select hours_lookback newsBodyRaises
  let market := marketDriver_select marketBodyRaises
  let portfolio := portfolioDriver_select portfolioBodyRaises
  match baselineRotator_select rotation_size day_of_year with
  | Except.error e => Except.error e
  | Except.ok baseline =>
      Except.ok (select_candidates_merge news market portfolio baseline)

/-! ### Claims C1 and C8 -/

/-- C1, counterexample.  The claim says a strategy that raises during its own
selection never aborts the merge and the merged list from the remaining
strategies is still returned.  But calling the selector with
`baseline_size = 0` makes `BaselineRotator.select_candidates` raise
`ZeroDivisionError` (at `len(self.universe) // rotation_size`), the `except`
clause of the rotator re-raises it, the `except` clause of the selector re-raises it
again, and no merged list is returned. -/
theorem select_candidates_zero_baseline_aborts :
    CandidateSelector_select 24 0 1 false false false =
      Except.error "ZeroDivisionError" :=
  rfl

/-- C1, amended.  Exceptions raised inside the bodies of the news, market and
portfolio strategies are caught inside the respective strategy and contribute
an empty candidate set, so the selector result does not depend on them; but
a failure of the baseline strategy (which re-raises) propagates out of
`select_candidates`, aborting the merge: the result is an error exactly when
`rotation_size = 0`, and a merged list is returned otherwise. -/
theorem select_candidates_error_isolation
    (h d rs : Nat) (n m p n' m' p' : Bool) :
    CandidateSelector_select h rs d n m p = CandidateSelector_select h rs d n' m' p' ∧
    (rs = 0 →
      CandidateSelector_select h rs d n m p = Except.error "ZeroDivisionError") ∧
    (rs ≠ 0 → ∃ l, CandidateSelector_select h rs d n m p = Except.ok l) := by
  refine ⟨rfl, ?_, ?_⟩
  · intro hrs
    subst hrs
    rfl
  · intro hrs
    simp only [CandidateSelector_select, baselineRotator_select, if_neg hrs]
    exact ⟨_, rfl⟩

/-- Witness for `select_candidates_error_isolation` at a concrete input. -/
theorem select_candidates_error_isolation_witness :
    (10 ≠ 0) ∧ ∃ l, CandidateSelector_select 24 10 1 true true true = Except.ok l :=
  ⟨by decide, (select_candidates_error_isolation 24 1 10 true true true false false false).2.2
    (by decide)⟩

/-- C8.  For the candidate merge: the output is sorted by priority descending
with ties broken by ticker ascending; the priority of every merged ticker is the
maximum of the priorities of the strategies that proposed it (never
overwritten downward); a ticker proposed by both the news and the market
strategy gets the broadened source tag `"news_market"`; and the output tuples
are exactly the projections of the merged dict entries. -/
theorem merge_priority_max_sorted
    (news market portfolio baseline : List (String × SInfo))
    (hn : (keys news).Nodup) (hm : (keys market).Nodup)
    (hp : (keys portfolio).Nodup) (hb : (keys baseline).Nodup) :
    List.Sorted candidateRel (select_candidates_merge news market portfolio baseline) ∧
    (∀ t v, dget t (mergeDicts news market portfolio baseline) = some v →
      v.priority = listMaxQ (contribPriorities news market portfolio baseline t)) ∧
    (∀ t v, dget t (mergeDicts news market portfolio baseline) = some v →
      (dget t news).isSome → (dget t market).isSome → v.source = "news_market") ∧
    (∀ t r pr, (t, r, pr) ∈ select_candidates_merge news market portfolio baseline ↔
      ∃ v, dget t (mergeDicts news market portfolio baseline) = some v ∧
        v.reason = r ∧ v.priority = pr) := by
  refine ⟨List.sorted_insertionSort candidateRel _, ?_, ?_, ?_⟩
  · intro t v hv
    rw [dget_mergeDicts news market portfolio baseline hn hm hp hb] at hv
    unfold contribPriorities
    cases hna : dget t news <;> cases hma : dget t market <;>
      cases hpa : dget t portfolio <;> cases hba : dget t baseline <;>
      rw [hna, hma, hpa, hba] at hv
    all_goals simp [mergeSpec] at hv
    all_goals subst hv
    all_goals
      simp [hna, hma, hpa, hba, listMaxQ, newsEntry, marketEntry,
            portfolioEntry, baselineEntry, sup_eq_max, max_def]
    all_goals norm_num
  · intro t v hv h1 h2
    rw [dget_mergeDicts news market portfolio baseline hn hm hp hb] at hv
    obtain ⟨ni, hni⟩ := Option.isSome_iff_exists.mp h1
    obtain ⟨mi, hmi⟩ := Option.isSome_iff_exists.mp h2
    rw [hni, hmi] at hv
    cases hpa : dget t portfolio <;> cases hba : dget t baseline <;>
      rw [hpa, hba] at hv <;>
      simp only [mergeSpec, Option.map_some, Option.some.injEq] at hv <;>
      subst hv <;> rfl
  · intro t r pr
    unfold select_candidates_merge
    rw [List.mem_insertionSort]
    constructor
    · intro hx
      obtain ⟨q, hq, he⟩ := List.mem_map.mp hx
      simp only [Prod.mk.injEq] at he
      refine ⟨q.2, ?_, he.2.1, he.2.2⟩
      have hq' : (t, q.2) ∈ mergeDicts news market portfolio baseline := by
        rw [← he.1]
        exact hq
      exact dget_eq_some_of_mem (keys_nodup_mergeDicts news market portfolio baseline) hq'
    · rintro ⟨v, hv, hr, hpr⟩
      apply List.mem_map.mpr
      exact ⟨(t, v), mem_of_dget_eq_some hv, by simp [hr, hpr]⟩

/-- Concrete merge inputs used by the witness below: `"AAPL"` proposed by the
news strategy (priority `0.9`) and by the baseline strategy (priority `0.5`). -/
def newsInputW : List (String × SInfo) :=
  [("AAPL", ⟨"positive_news_sentiment", some (1/2), none⟩)]

def baselineInputW : List (String × SInfo) :=
  [("AAPL", ⟨"baseline_rotation", none, none⟩)]

/-- Witness for `merge_priority_max_sorted`: priorities 0.5 and 0.9 merge
to 0.9. -/
theorem merge_priority_max_sorted_witness :
    (keys newsInputW).Nodup ∧ (keys baselineInputW).Nodup ∧
    List.Sorted candidateRel (select_candidates_merge newsInputW [] [] baselineInputW) ∧
    (newsEntry ⟨"positive_news_sentiment", some (1/2), none⟩).priority =
      listMaxQ (contribPriorities newsInputW [] [] baselineInputW "AAPL") ∧
    listMaxQ (contribPriorities newsInputW [] [] baselineInputW "AAPL") = 9/10 :=
  ⟨by decide, by decide,
   (merge_priority_max_sorted newsInputW [] [] baselineInputW
      (by decide) (by decide) (by decide) (by decide)).1,
   (merge_priority_max_sorted newsInputW [] [] baselineInputW
      (by decide) (by decide) (by decide) (by decide)).2.1 "AAPL" _ rfl,
   by
     rw [show contribPriorities newsInputW [] [] baselineInputW "AAPL"
           = [9/10, 1/2] from rfl]
     simp [listMaxQ, max_def]
     norm_num⟩

/-! ### Sentiment extraction (src/news/parser.py)

`NewsParser.extract_sentiment` cascades FinBERT -> Ollama -> keyword
heuristic.  The two external stages are black boxes; their outcome is a
parameter of type `Option ℚ` (`none` = stage failed internally or
produced no usable value, exactly how `_extract_sentiment_finbert` /
`_extract_sentiment_ollama` report failure). -/

/-- Check that `needle` starts `hay`. -/
def strStartsWith : List Char → List Char → Bool
  | [], _ => true
  | _ :: _, [] => false
  | a :: as, b :: bs => a == b && strStartsWith as bs

/-- Check that `needle` occurs contiguously in `hay` (Python `needle in hay`
on strings). -/
def strOccursIn (needle : List Char) : List Char → Bool
  | [] => needle.isEmpty
  | b :: bs => strStartsWith needle (b :: bs) || strOccursIn needle bs

/-- Python `needle in hay` for strings. -/
def substrB (needle hay : String) : Bool :=
  strOccursIn needle.data hay.data

/-- Python `str.lower()` (the texts involved are ASCII).  Extensionally the
same map as `String.toLower`, but defined on the character list so that it
evaluates by kernel reduction. -/
def strToLower (s : String) : String :=
  ⟨s.data.map Char.toLower⟩

/-- Python `str.upper()` (ASCII), on the character list. -/
def strToUpper (s : String) : String :=
  ⟨s.data.map Char.toUpper⟩

/-- Bullish keyword list of `_extract_sentiment_heuristic` (parser.py 201-206). -/
def bullish_keywords : List String :=
  ["beat earnings", "upbeat", "surge", "rally", "gain", "strong",
   "upgrade", "bullish", "jump", "soar", "breakthrough", "deal",
   "partnership", "merger", "record", "profit", "outperform",
   "beat", "top analyst", "buy", "outflow reduction"]

/-- Bearish keyword list of `_extract_sentiment_heuristic` (parser.py 209-214). -/
def bearish_keywords : List String :=
  ["miss earnings", "downgrade", "downbeat", "decline", "loss",
   "weak", "bearish", "crash", "plunge", "sell", "lawsuit",
   "scandal", "recall", "investigation", "warning", "delay",
   "underperform", "cut", "outflow", "regulatory"]

/-- Count `sum(1 for keyword in kws if keyword in text_lower)`: the number of
keywords of the list that occur in the (already lower-cased) text. -/
def countKeywords (kws : List String) (textLower : String) : Nat :=
  (kws.filter fun k => substrB k textLower).length

/-- Embedding of `NewsParser._extract_sentiment_heuristic` (parser.py 196-227). -/
def extract_sentiment_heuristic (text : String) : ℚ :=
  let tl := strToLower text
  let bullish_score := countKeywords bullish_keywords tl
  let bearish_score := countKeywords bearish_keywords tl
  let total := bullish_score + bearish_score
  if total = 0 then 0
  else
    max (-1) (min 1
      (((bullish_score : ℚ) - (bearish_score : ℚ)) / ((total : ℚ) * (1/2))))

/-- Truthiness of the Python `use_llm` argument, which defaults to `None`
(`None` and `False` are both falsy in `if use_llm and self.use_ollama`). -/
def pyTruthy : Option Bool → Bool
  | some true => true
  | _ => false

/-- Embedding of `NewsParser.extract_sentiment` (parser.py 63-94).  `use_finbert` and
`finbert_model` are the instance flags (`self.use_finbert`, model loaded);
`finbertRes` / `ollamaRes` are the outcomes of the two external stages;
`use_llm` is the per-call override which defaults to `None`.  The outer
`try/except` is unreachable here because every stage catches its own
exceptions and the heuristic is total. -/
def extract_sentiment (use_finbert finbert_model : Bool) (finbertRes : Option ℚ)
    (use_llm : Option Bool) (use_ollama : Bool) (ollamaRes : Option ℚ)
    (text : String) : ℚ :=
  match (if use_finbert && finbert_model then finbertRes else none) with
  | some s => s
  | none =>
    match (if pyTruthy use_llm && use_ollama then ollamaRes else none) with
    | some s => s
    | none => extract_sentiment_heuristic text

/-! ### Claims C6 and C3 -/

/-- C6.  The heuristic sentiment stage always lies in `[-1, 1]`, returns
exactly `0` when no keyword of either list occurs in the lower-cased text,
and otherwise returns exactly
`(bullish_count - bearish_count) / (0.5 * total_count)` clamped to
`[-1, 1]`.  It is a total function (it cannot fail). -/
theorem heuristic_sentiment_formula (text : String) :
    (-1 ≤ extract_sentiment_heuristic text ∧ extract_sentiment_heuristic text ≤ 1) ∧
    (countKeywords bullish_keywords (strToLower text) +
        countKeywords bearish_keywords (strToLower text) = 0 →
      extract_sentiment_heuristic text = 0) ∧
    (countKeywords bullish_keywords (strToLower text) +
        countKeywords bearish_keywords (strToLower text) ≠ 0 →
      extract_sentiment_heuristic text =
        max (-1) (min 1
          (((countKeywords bullish_keywords (strToLower text) : ℚ) -
            (countKeywords bearish_keywords (strToLower text) : ℚ)) /
           ((countKeywords bullish_keywords (strToLower text) +
             countKeywords bearish_keywords (strToLower text) : ℚ) * (1/2))))) := by
  refine ⟨?_, ?_, ?_⟩
  · unfold extract_sentiment_heuristic
    by_cases h : countKeywords bullish_keywords (strToLower text) +
        countKeywords bearish_keywords (strToLower text) = 0
    · simp [h]
    · simp only [h, if_false, ite_false]
      constructor
      · exact le_max_left _ _
      · exact max_le (by norm_num) (min_le_left _ _)
  · intro h
    simp [extract_sentiment_heuristic, h]
  · intro h
    simp [extract_sentiment_heuristic, h]

/-- Witness for `heuristic_sentiment_formula`: a keyword-free text scores
exactly `0`; a text with two bullish keywords and no bearish keyword
scores `1` (the clamped value of `2 / (2 * 0.5) = 2`). -/
theorem heuristic_sentiment_formula_witness :
    (countKeywords bullish_keywords (strToLower "no signal here") +
        countKeywords bearish_keywords (strToLower "no signal here") = 0) ∧
    extract_sentiment_heuristic "no signal here" = 0 ∧
    (countKeywords bullish_keywords (strToLower "surge and rally") +
        countKeywords bearish_keywords (strToLower "surge and rally") ≠ 0) ∧
    extract_sentiment_heuristic "surge and rally" = 1 :=
  ⟨by decide, (heuristic_sentiment_formula "no signal here").2.1 (by decide), by decide,
   by
     have h := (heuristic_sentiment_formula "surge and rally").2.2 (by decide)
     rw [h,
         show countKeywords bullish_keywords (strToLower "surge and rally") = 2
           from by decide,
         show countKeywords bearish_keywords (strToLower "surge and rally") = 0
           from by decide]
     norm_num⟩

/-- C3, counterexample.  With the financial classifier enabled but yielding
no usable value (`finbertRes = none`), Ollama enabled
(`use_ollama = true`) and ready to return the usable value `1/2`
(respectively `-1/2`), a call that leaves `use_llm` at its Python default
`None` returns the heuristic value `0` for the empty text: the LLM stage is
never attempted (had it been attempted, its non-`None` value would have been
returned by the early `return sentiment` at parser.py line 87), refuting the
claim that the LLM stage is attempted whenever the classifier yields `None`
and the LLM stage is enabled. -/
theorem extract_sentiment_skips_llm_counterexample :
    extract_sentiment true true none none true (some (1/2)) "" = 0 ∧
    extract_sentiment true true none none true (some (-1/2)) "" = 0 ∧
    ¬ ((1 : ℚ)/2 = 0) :=
  ⟨rfl, rfl, by norm_num⟩

/-- C3, amended.  Each stage is tried exactly when the previous stage yields
no usable value and the gate of the stage holds; the gate of the LLM stage is
`use_llm and use_ollama`, i.e. it additionally requires the per-call
`use_llm` argument to be truthy — with the default `use_llm = None` the LLM
stage is skipped even when Ollama is enabled, and the heuristic follows the
classifier directly. -/
theorem extract_sentiment_cascade (uf fl : Bool) (fr : Option ℚ) (ul : Option Bool)
    (uo : Bool) (lr : Option ℚ) (text : String) :
    ((uf && fl) = true → ∀ s, fr = some s →
        extract_sentiment uf fl fr ul uo lr text = s) ∧
    ((if uf && fl then fr else none) = none → (pyTruthy ul && uo) = true →
      ∀ s, lr = some s → extract_sentiment uf fl fr ul uo lr text = s) ∧
    ((if uf && fl then fr else none) = none →
      (if pyTruthy ul && uo then lr else none) = none →
        extract_sentiment uf fl fr ul uo lr text = extract_sentiment_heuristic text) ∧
    (ul = none →
        extract_sentiment uf fl fr ul uo lr text =
          match (if uf && fl then fr else none) with
          | some s => s
          | none => extract_sentiment_heuristic text) := by
  refine ⟨?_, ?_, ?_, ?_⟩
  · intro h s hfr
    simp [extract_sentiment, h, hfr]
  · intro h1 h2 s hlr
    unfold extract_sentiment
    rw [h1, h2]
    simp [hlr]
  · intro h1 h2
    unfold extract_sentiment
    rw [h1]
    simp only []
    rw [h2]
  · intro h
    subst h
    unfold extract_sentiment
    cases hif : (if uf && fl then fr else none) <;> simp [pyTruthy]

/-- Witness for `extract_sentiment_cascade`: with the classifier disabled and
`use_llm = True` passed explicitly, an Ollama value of `3/4` is returned. -/
theorem extract_sentiment_cascade_witness :
    ((if false && false then (none : Option ℚ) else none) = none) ∧
    ((pyTruthy (some true) && true) = true) ∧
    extract_sentiment false false none (some true) true (some (3/4)) "x" = 3/4 :=
  ⟨rfl, rfl,
   (extract_sentiment_cascade false false none (some true) true (some (3/4)) "x").2.1
     rfl rfl (3/4) rfl⟩

/-! ### RAG re-ranking (src/news/rag.py, `_rank_by_recency`)

A retrieved item carries a similarity score and an age in hours
(`(now - pub_time).total_seconds() / 3600`); `_rank_by_recency` attaches
a combined `score` field and sorts by it descending. -/

structure RagItem where
  similarity : ℚ
  age_hours : ℚ
  score : ℚ
deriving Repr, DecidableEq

/-- Recency term `max(0, 1 - (age_hours / max_age_hours))` with
`max_age_hours = 168` (rag.py lines 218, 227-228). -/
def recencyOf (age_hours : ℚ) : ℚ :=
  max 0 (1 - age_hours / 168)

/-- Combined score `(1 - weight) * similarity + weight * recency` (line 232). -/
def combinedScore (weight similarity recency : ℚ) : ℚ :=
  (1 - weight) * similarity + weight * recency

/-- The per-item mutation of the loop body (lines 220-233). -/
def scoreItem (weight : ℚ) (it : RagItem) : RagItem :=
  { it with score := combinedScore weight it.similarity (recencyOf it.age_hours) }

/-- Sort order of line 236: combined score descending (stable). -/
def scoreRel (a b : RagItem) : Prop :=
  b.score ≤ a.score

instance : DecidableRel scoreRel := fun a b =>
  inferInstanceAs (Decidable (b.score ≤ a.score))

/-- Embedding of `NewsRAG._rank_by_recency` (rag.py 202-237).  The early return for an
empty list coincides with mapping and sorting the empty list. -/
def rank_by_recency (weight : ℚ) (items : List RagItem) : List RagItem :=
  List.insertionSort scoreRel (items.map (scoreItem weight))

/-! ### Ticker context (src/news/rag.py, `get_ticker_context`) -/

/-- A stored news row as consumed by `get_ticker_context`
(per `n.get(..., 0)` the sentiment may be absent).  The rows
arrive ordered by publish time descending (`ORDER BY published_at DESC`
in `NewsStorage.get_news_for_ticker`), so earlier list positions are the
more recent items. -/
structure NewsRow where
  headline : String
  sentiment_score : Option ℚ
deriving Repr, DecidableEq

/-- Mean (`np.mean`) of a list of rationals. -/
def meanQ (l : List ℚ) : ℚ :=
  l.sum / (l.length : ℚ)

/-- Trend computation of rag.py lines 108-113: with at least two
sentiments, compare the mean of the newer half `sentiments[:n//2]`
against the older half `sentiments[n//2:]`; otherwise `"neutral"`. -/
def sentimentTrend (sentiments : List ℚ) : String :=
  if 1 < sentiments.length then
    if meanQ (sentiments.drop (sentiments.length / 2)) <
        meanQ (sentiments.take (sentiments.length / 2))
    then "improving" else "deteriorating"
  else "neutral"

/-- The context dict built by `get_ticker_context` (the `timestamp` field,
a wall-clock value, is not modelled; the `except` branch at rag.py 131-137
omits it anyway). -/
structure TickerContext where
  ticker : String
  news_items : List NewsRow
  count : Nat
  avg_sentiment : ℚ
  sentiment_trend : String
deriving Repr, DecidableEq

/-- Embedding of `NewsRAG.get_ticker_context` (rag.py 72-137).  `queryResult` is the
outcome of `storage.get_news_for_ticker` (the only fallible step of the
`try` block); on an exception the `except` branch returns the neutral
context. -/
def get_ticker_context (ticker : String) (queryResult : Except String (List NewsRow))
    (min_sentiment : Option ℚ) : TickerContext :=
  match queryResult with
  | Except.error _ => ⟨ticker, [], 0, 0, "neutral"⟩
  | Except.ok fetched =>
    let news_items := match min_sentiment with
      | none => fetched
      | some ms => fetched.filter fun n => ms ≤ n.sentiment_score.getD 0
    let sentiments := news_items.map fun n => n.sentiment_score.getD 0
    let avg_sentiment := if sentiments.isEmpty then 0 else meanQ sentiments
    ⟨ticker, news_items, news_items.length, avg_sentiment,
      sentimentTrend sentiments⟩

/-! ### Claims C5, C7, C10 -/

/-- C5.  Every item output by `_rank_by_recency` carries the combined score
`(1 - recency_weight) * similarity + recency_weight * max(0, 1 - age_hours/168)`;
for `recency_weight ∈ [0,1]` the combined score is non-decreasing in the
recency term for fixed similarity and non-decreasing in similarity for fixed
recency; and the recency term is floored at `0`, never negative. -/
theorem rag_combined_score_monotone (w : ℚ) (hw0 : 0 ≤ w) (hw1 : w ≤ 1)
    (items : List RagItem) :
    (∀ it, it ∈ rank_by_recency w items →
      it.score = (1 - w) * it.similarity + w * max 0 (1 - it.age_hours / 168)) ∧
    (∀ s r r', r ≤ r' → combinedScore w s r ≤ combinedScore w s r') ∧
    (∀ s s' r, s ≤ s' → combinedScore w s r ≤ combinedScore w s' r) ∧
    (∀ a, 0 ≤ recencyOf a) := by
  refine ⟨?_, ?_, ?_, ?_⟩
  · intro it hit
    unfold rank_by_recency at hit
    rw [List.mem_insertionSort] at hit
    obtain ⟨orig, _, he⟩ := List.mem_map.mp hit
    subst he
    simp [scoreItem, combinedScore, recencyOf]
  · intro s r r' h
    unfold combinedScore
    have := mul_le_mul_of_nonneg_left h hw0
    linarith
  · intro s s' r h
    unfold combinedScore
    have := mul_le_mul_of_nonneg_left h (by linarith : (0:ℚ) ≤ 1 - w)
    linarith
  · intro a
    exact le_max_left _ _

/-- Witness for `rag_combined_score_monotone` at the default
`recency_weight = 0.3`, including a stale item whose recency term is
floored at `0`. -/
theorem rag_combined_score_monotone_witness :
    ((0:ℚ) ≤ 3/10) ∧ ((3:ℚ)/10 ≤ 1) ∧ ((0:ℚ) ≤ 1) ∧
    combinedScore (3/10) (1/2) 0 ≤ combinedScore (3/10) (1/2) 1 ∧
    (0 ≤ recencyOf 500 ∧ recencyOf 500 = 0) :=
  ⟨by norm_num, by norm_num, by norm_num,
   (rag_combined_score_monotone (3/10) (by norm_num) (by norm_num) []).2.1
     (1/2) 0 1 (by norm_num),
   (rag_combined_score_monotone (3/10) (by norm_num) (by norm_num) []).2.2.2 500,
   by
     unfold recencyOf
     rw [max_eq_left (by norm_num : ((1:ℚ) - 500/168) ≤ 0)]⟩

/-- C7.  The `sentiment_trend` of a ticker context over rows ordered newest
first: with more than one item it is `"improving"` exactly when the mean of
the newer half `sentiments[:n//2]` exceeds the mean of the older half
`sentiments[n//2:]` and `"deteriorating"` otherwise; a single item gives
`"neutral"`.  In particular sentiments `[0.8 (newest), -0.8 (oldest)]` give
`"improving"` and the reversed order gives `"deteriorating"`. -/
theorem ticker_context_trend (ticker : String) (rows : List NewsRow) :
    (1 < rows.length →
      meanQ ((rows.map fun n => n.sentiment_score.getD 0).drop (rows.length / 2)) <
        meanQ ((rows.map fun n => n.sentiment_score.getD 0).take (rows.length / 2)) →
      (get_ticker_context ticker (Except.ok rows) none).sentiment_trend = "improving") ∧
    (1 < rows.length →
      ¬ (meanQ ((rows.map fun n => n.sentiment_score.getD 0).drop (rows.length / 2)) <
          meanQ ((rows.map fun n => n.sentiment_score.getD 0).take (rows.length / 2))) →
      (get_ticker_context ticker (Except.ok rows) none).sentiment_trend = "deteriorating") ∧
    (rows.length = 1 →
      (get_ticker_context ticker (Except.ok rows) none).sentiment_trend = "neutral") ∧
    (get_ticker_context ticker
        (Except.ok [⟨"up", some (4/5)⟩, ⟨"down", some (-4/5)⟩]) none).sentiment_trend
      = "improving" ∧
    (get_ticker_context ticker
        (Except.ok [⟨"down", some (-4/5)⟩, ⟨"up", some (4/5)⟩]) none).sentiment_trend
      = "deteriorating" := by
  refine ⟨?_, ?_, ?_, ?_, ?_⟩
  · intro hlen hmean
    simp only [get_ticker_context, sentimentTrend, List.length_map]
    rw [if_pos (by simpa using hlen), if_pos (by simpa using hmean)]
  · intro hlen hmean
    simp only [get_ticker_context, sentimentTrend, List.length_map]
    rw [if_pos (by simpa using hlen), if_neg (by simpa using hmean)]
  · intro hlen
    simp only [get_ticker_context, sentimentTrend, List.length_map]
    rw [if_neg (by simp [hlen])]
  · simp only [get_ticker_context, sentimentTrend]
    norm_num [meanQ]
  · simp only [get_ticker_context, sentimentTrend]
    norm_num [meanQ]

/-- Witness for `ticker_context_trend`: two rows, newest sentiment `0.8`,
oldest `-0.8`. -/
theorem ticker_context_trend_witness :
    (1 < ([⟨"up", some (4/5)⟩, ⟨"down", some (-4/5)⟩] : List NewsRow).length) ∧
    (get_ticker_context "AAPL"
        (Except.ok [⟨"up", some (4/5)⟩, ⟨"down", some (-4/5)⟩]) none).sentiment_trend
      = "improving" :=
  ⟨by norm_num,
   (ticker_context_trend "AAPL" [⟨"up", some (4/5)⟩, ⟨"down", some (-4/5)⟩]).1
     (by norm_num) (by norm_num [meanQ])⟩

/-- C10.  A ticker whose time-windowed query yields zero items produces the
well-formed context `{count := 0, avg_sentiment := 0, news_items := [],
sentiment_trend := "neutral"}`, and an internal query failure produces the
same shape (rag.py 129-137). -/
theorem ticker_context_empty_and_error (ticker : String) (ms : Option ℚ) (e : String) :
    get_ticker_context ticker (Except.ok []) ms =
      ⟨ticker, [], 0, 0, "neutral"⟩ ∧
    get_ticker_context ticker (Except.error e) ms =
      ⟨ticker, [], 0, 0, "neutral"⟩ := by
  constructor
  · cases ms <;> rfl
  · rfl

/-! ### Ticker extraction (src/news/ticker_extractor.py)

`TickerExtractor.extract_tickers` tries the Ollama LLM stage, then the
keyword-mapping fallback.  The LLM transport and JSON-substring parsing
are a black box: `parsedTickers` is the `tickers` list recovered from
the response (`none` when the call failed, timed out, returned a
non-200 status, or the JSON could not be parsed — all of which
`_extract_tickers_llm` converts to `None` internally). -/

/-- The static company name -> ticker table (ticker_extractor.py 47-79),
in source order. -/
def fallback_ticker_map : List (String × String) :=
  [("apple", "AAPL"), ("apple inc", "AAPL"), ("apple inc.", "AAPL"),
   ("microsoft", "MSFT"), ("microsoft corporation", "MSFT"),
   ("google", "GOOGL"), ("alphabet", "GOOGL"), ("alphabet inc", "GOOGL"),
   ("amazon", "AMZN"), ("amazon.com", "AMZN"), ("aws", "AMZN"),
   ("meta", "META"), ("facebook", "META"), ("meta platforms", "META"),
   ("nvidia", "NVDA"), ("nvidia corporation", "NVDA"),
   ("tesla", "TSLA"), ("tesla inc", "TSLA"),
   ("general motors", "GM"), ("gm", "GM"),
   ("ford", "F"), ("ford motor", "F"),
   ("jpmorgan", "JPM"), ("jp morgan", "JPM"), ("jp morgan chase", "JPM"),
   ("goldman sachs", "GS"),
   ("bank of america", "BAC"), ("bofa", "BAC"),
   ("walmart", "WMT"), ("costco", "COST"), ("target", "TGT"),
   ("pfizer", "PFE"), ("moderna", "MRNA"),
   ("johnson & johnson", "JNJ"), ("j&j", "JNJ"),
   ("exxon mobil", "XOM"), ("chevron", "CVX")]

/-- The set of tickers whose mapped company names occur in the lower-cased
text (`found_tickers` before the default is added; Python builds a `set`,
whose iteration order is unspecified — modelled as the deduplicated list).
-/
def fallbackMatches (text : String) : List String :=
  ((fallback_ticker_map.filter fun q => substrB q.1 (strToLower text)).map Prod.snd).dedup

/-- Embedding of `TickerExtractor._extract_tickers_fallback` (ticker_extractor.py
183-215): union of all keyword matches, the SPY singleton if there are none.
Its `except` branch also returns the SPY singleton, so the function is total and never
empty. -/
def extract_tickers_fallback (text : String) : List String :=
  let found := fallbackMatches text
  if found.isEmpty then ["SPY"] else found

/-- Validation of one LLM-proposed ticker (ticker_extractor.py 162-165):
a string of length 1-5, alphabetic (Python `str.isalpha`). -/
def validTicker (t : String) : Bool :=
  1 ≤ t.length && t.length ≤ 5 && t.data.all Char.isAlpha

/-- The tail of `TickerExtractor._extract_tickers_llm` (lines 158-181) after
the JSON `tickers` list has been recovered: empty or all-invalid lists (and
any earlier failure, `parsedTickers = none`) yield `None`; otherwise the
upper-cased validated list. -/
def extract_tickers_llm (parsedTickers : Option (List String)) : Option (List String) :=
  match parsedTickers with
  | none => none
  | some ts =>
    if ts.isEmpty then none
    else
      let valid := (ts.filter validTicker).map strToUpper
      if valid.isEmpty then none else some valid

/-- Embedding of `TickerExtractor.extract_tickers` (ticker_extractor.py 81-108).  The
`except` branch returning `[]` is unreachable: both stages catch their own
exceptions. -/
def extract_tickers (use_llm ollama_available : Bool)
    (parsedTickers : Option (List String)) (text : String) : List String :=
  match (if use_llm && ollama_available then extract_tickers_llm parsedTickers else none) with
  | some ts => if ts.isEmpty then extract_tickers_fallback text else ts
  | none => extract_tickers_fallback text

/-! ### Claim C4 -/

/-- C4.  Ticker extraction always returns a non-empty list, and when no
stage yields anything — the LLM stage produced nothing and no mapped
company name occurs in the text — it returns exactly `["SPY"]`.  Both
stages and the extractor itself are total functions (no exception reaches
the caller). -/
theorem extract_tickers_nonempty_default (use_llm avail : Bool)
    (parsed : Option (List String)) (text : String) :
    extract_tickers use_llm avail parsed text ≠ [] ∧
    (extract_tickers_llm parsed = none → fallbackMatches text = [] →
      extract_tickers use_llm avail parsed text = ["SPY"]) := by
  have hfb : ∀ t, extract_tickers_fallback t ≠ [] := by
    intro t
    unfold extract_tickers_fallback
    by_cases h : (fallbackMatches t).isEmpty
    · simp [h]
    · rw [if_neg h]
      intro hc
      rw [hc] at h
      exact h rfl
  constructor
  · unfold extract_tickers
    cases hl : (if use_llm && avail then extract_tickers_llm parsed else none) with
    | none => exact hfb text
    | some ts =>
      show (if ts.isEmpty = true then extract_tickers_fallback text else ts) ≠ []
      by_cases hts : ts.isEmpty
      · rw [if_pos hts]
        exact hfb text
      · rw [if_neg hts]
        intro hc
        rw [hc] at hts
        exact hts rfl
  · intro h1 h2
    have hnone : (if use_llm && avail then extract_tickers_llm parsed else none) = none := by
      cases use_llm && avail <;> simp [h1]
    unfold extract_tickers
    rw [hnone]
    simp [extract_tickers_fallback, h2]

/-- Witness for `extract_tickers_nonempty_default`: a text matching no
company name, with no LLM response, yields exactly `["SPY"]`. -/
theorem extract_tickers_nonempty_default_witness :
    extract_tickers_llm none = none ∧
    fallbackMatches "nothing relevant" = [] ∧
    extract_tickers true true none "nothing relevant" = ["SPY"] :=
  ⟨rfl, by decide,
   (extract_tickers_nonempty_default true true none "nothing relevant").2 rfl (by decide)⟩

/-! ### Novelty scoring (src/news/parser.py, `score_novelty`)

Embeddings are real vectors; the cosine-similarity computation of
parser.py 244-266 is embedded over `ℝ` (the numpy float arithmetic needs
square roots).  Any numpy failure inside the `try` — a missing embedding
(`None`) or mismatched shapes — is caught at line 268 and returns `0.5`;
the shape guard below is exactly that error path. -/

/-- Sum of squares of a vector. -/
def sumSq (v : List ℝ) : ℝ :=
  (v.map fun x => x * x).sum

/-- Euclidean norm `np.linalg.norm v`. -/
noncomputable def l2norm (v : List ℝ) : ℝ :=
  Real.sqrt (sumSq v)

/-- The `1e-10` guard added to every norm before dividing (parser.py
253-256). -/
noncomputable def normEps : ℝ :=
  1 / 10 ^ 10

/-- Normalization `v / (np.linalg.norm(v) + 1e-10)`. -/
noncomputable def normalizeVec (v : List ℝ) : List ℝ :=
  v.map fun x => x / (l2norm v + normEps)

/-- Dot product of two vectors of equal length. -/
def dotList (v w : List ℝ) : ℝ :=
  (List.zipWith (fun a b => a * b) v w).sum

/-- Maximum (`np.max`) of a non-empty list (`0` for `[]`, never used on `[]`). -/
def listMaxR : List ℝ → ℝ
  | [] => 0
  | x :: xs => xs.foldl max x

/-- Value `np.max(np.dot(embeddings_norm, embedding_norm))`: the largest cosine
similarity (with the `1e-10` norm guard) between the new embedding and any
existing one. -/
noncomputable def maxSimilarity (e : List ℝ) (existing : List (List ℝ)) : ℝ :=
  listMaxR (existing.map fun w => dotList (normalizeVec w) (normalizeVec e))

/-- Embedding of `NewsParser.score_novelty` (parser.py 229-270).  `embedding = none`
models the embedding key being absent (numpy then raises and the
`except` returns `0.5`); the length guard models the shape errors numpy
raises on ragged or mismatched inputs, caught by the same `except`. -/
noncomputable def score_novelty (embedding : Option (List ℝ))
    (existing : List (List ℝ)) : ℝ :=
  if existing.isEmpty then 1
  else
    match embedding with
    | none => 1/2
    | some e =>
      if existing.all (fun w => w.length == e.length) then
        max 0 (1 - maxSimilarity e existing)
      else 1/2

/-! ### Claim C2 -/

/-- C2, counterexample.  The claim says `score_novelty` always returns a
value in `[0, 1]`.  But for the embedding `[1, 0]` against the single
existing embedding `[-1, 0]` the maximum cosine similarity is negative
(about `-1`), so `max(0, 1 - max_similarity) = 1 + 1/(1 + 1e-10)^2 > 1`:
the result exceeds `1`. -/
theorem score_novelty_exceeds_one :
    1 < score_novelty (some [1, 0]) [[-1, 0]] := by
  have hs1 : sumSq [(1:ℝ), 0] = 1 := by
    simp [sumSq]
  have hs2 : sumSq [(-1:ℝ), 0] = 1 := by
    simp [sumSq]
  have hn1 : l2norm [(1:ℝ), 0] = 1 := by
    rw [l2norm, hs1, Real.sqrt_one]
  have hn2 : l2norm [(-1:ℝ), 0] = 1 := by
    rw [l2norm, hs2, Real.sqrt_one]
  have h1 : score_novelty (some [1, 0]) [[-1, 0]] =
      max 0 (1 - maxSimilarity [1, 0] [[-1, 0]]) := rfl
  have h2 : maxSimilarity [1, 0] [[-1, 0]] =
      dotList (normalizeVec [-1, 0]) (normalizeVec [1, 0]) := rfl
  have h3 : dotList (normalizeVec [-1, 0]) (normalizeVec [1, 0]) =
      -(1 / ((1 + normEps) * (1 + normEps))) := by
    simp [dotList, normalizeVec, hn1, hn2]
    ring
  have heps : (0:ℝ) < 1 + normEps := by
    rw [normEps]
    norm_num
  have hpos : 0 < (1:ℝ) / ((1 + normEps) * (1 + normEps)) := by
    positivity
  rw [h1, h2, h3]
  calc (1:ℝ) < 1 - -(1 / ((1 + normEps) * (1 + normEps))) := by linarith
    _ ≤ max 0 (1 - -(1 / ((1 + normEps) * (1 + normEps)))) := le_max_right _ _

/-- C2, amended.  `score_novelty` returns exactly `1` when no existing
embeddings are supplied, and otherwise `max(0, 1 - max_similarity)`; the
result is always `≥ 0`, and lies within `[0, 1]` whenever the maximum
similarity is non-negative (but can exceed `1` when every similarity is
negative, as the counterexample shows). -/
theorem score_novelty_formula (e : List ℝ) (existing : List (List ℝ))
    (hne : existing ≠ []) (hlen : ∀ w ∈ existing, w.length = e.length) :
    score_novelty (some e) existing = max 0 (1 - maxSimilarity e existing) ∧
    0 ≤ score_novelty (some e) existing ∧
    (0 ≤ maxSimilarity e existing → score_novelty (some e) existing ≤ 1) ∧
    score_novelty none [] = 1 ∧ score_novelty (some e) [] = 1 := by
  have h1 : existing.isEmpty = false := by
    cases existing with
    | nil => exact absurd rfl hne
    | cons w ws => rfl
  have h2 : (existing.all fun w => w.length == e.length) = true := by
    rw [List.all_eq_true]
    intro w hw
    simp [hlen w hw]
  have hmain : score_novelty (some e) existing =
      max 0 (1 - maxSimilarity e existing) := by
    show (if existing.isEmpty = true then (1:ℝ)
          else if (existing.all fun w => w.length == e.length) = true
               then max 0 (1 - maxSimilarity e existing) else 1/2)
         = max 0 (1 - maxSimilarity e existing)
    rw [h1, h2]
    simp
  refine ⟨hmain, ?_, ?_, rfl, rfl⟩
  · rw [hmain]
    exact le_max_left _ _
  · intro h
    rw [hmain]
    exact max_le (by norm_num) (by linarith)

/-- Witness for `score_novelty_formula`: embedding `[1, 0]` against the
orthogonal existing embedding `[0, 1]` has maximum similarity `0`, novelty
exactly `1`, inside `[0, 1]`. -/
theorem score_novelty_formula_witness :
    (([[0, 1]] : List (List ℝ)) ≠ []) ∧
    (∀ w ∈ ([[0, 1]] : List (List ℝ)), w.length = ([1, 0] : List ℝ).length) ∧
    (0 ≤ maxSimilarity [1, 0] [[0, 1]]) ∧
    score_novelty (some [1, 0]) [[0, 1]] = max 0 (1 - maxSimilarity [1, 0] [[0, 1]]) ∧
    score_novelty (some [1, 0]) [[0, 1]] ≤ 1 := by
  have h1 : ([[0, 1]] : List (List ℝ)) ≠ [] := by simp
  have h2 : ∀ w ∈ ([[0, 1]] : List (List ℝ)), w.length = ([1, 0] : List ℝ).length := by
    intro w hw
    simp at hw
    subst hw
    rfl
  have hms : maxSimilarity [1, 0] [[0, 1]] = 0 := by
    simp [maxSimilarity, listMaxR, dotList, normalizeVec]
  have hth := score_novelty_formula [1, 0] [[0, 1]] h1 h2
  exact ⟨h1, h2, by rw [hms], hth.1, hth.2.2.1 (by rw [hms])⟩

/-! ### Parsed news items (src/news/parser.py, `parse_news_item`) -/

/-- A news item dict as it passes through the Parser.  `none` fields model
absent dict keys (`news_item.get(...)`). -/
structure PNewsItem where
  headline : Option String
  content : Option String
  embedding : Option (List ℝ)
  sentiment_score : Option ℚ
  novelty_score : Option ℝ

/-- Embedding of `NewsParser.parse_news_item` (parser.py 272-312).  Sentiment and novelty
are computed (each stage absorbing its own failures), written onto the item,
and then the debug log indexes the headline key directly — a missing
headline raises `KeyError` there, and the `except` branch (308-312)
overwrites both scores with the neutral defaults `0.0` and `0.5` before
returning the item.  `extract_sentiment` is called with `use_llm` left at
its default `None` (line 287). -/
noncomputable def parse_news_item (item : PNewsItem)
    (use_finbert finbert_model : Bool) (finbertRes : Option ℚ)
    (use_ollama : Bool) (ollamaRes : Option ℚ)
    (existing : List (List ℝ)) : PNewsItem :=
  let combined := item.headline.getD "" ++ " " ++ item.content.getD ""
  let sentiment := extract_sentiment use_finbert finbert_model finbertRes
    none use_ollama ollamaRes combined
  let novelty := score_novelty item.embedding existing
  let enriched := { item with sentiment_score := some sentiment,
                              novelty_score := some novelty }
  match item.headline with
  | some _ => enriched
  | none => { enriched with sentiment_score := some 0, novelty_score := some (1/2) }

/-! ### Claim C9 -/

/-- C9.  Every item returned by `parse_news_item` has both
`sentiment_score` and `novelty_score` defined (never `none`), and on the
internal failure path (the `KeyError` raised while logging an item with no
headline) the item is still returned, carrying the neutral defaults
sentiment `0` and novelty `1/2`. -/
theorem parse_news_item_always_scored (item : PNewsItem)
    (uf fm : Bool) (fr : Option ℚ) (uo : Bool) (lr : Option ℚ)
    (existing : List (List ℝ)) :
    ((parse_news_item item uf fm fr uo lr existing).sentiment_score.isSome ∧
     (parse_news_item item uf fm fr uo lr existing).novelty_score.isSome) ∧
    (item.headline = none →
      parse_news_item item uf fm fr uo lr existing =
        { item with sentiment_score := some 0, novelty_score := some (1/2) }) := by
  constructor
  · unfold parse_news_item
    cases item.headline <;> simp
  · intro h
    unfold parse_news_item
    rw [h]

/-- Witness for `parse_news_item_always_scored`: an item with no headline
comes back with the neutral defaults. -/
theorem parse_news_item_always_scored_witness :
    ((⟨none, none, none, none, none⟩ : PNewsItem).headline = none) ∧
    parse_news_item ⟨none, none, none, none, none⟩ true true none true none [] =
      ⟨none, none, none, some 0, some (1/2)⟩ :=
  ⟨rfl,
   (parse_news_item_always_scored ⟨none, none, none, none, none⟩
      true true none true none []).2 rfl⟩

end MarketPrediction
